import Mathlib

/-!
Verification of the lazy TIFF decoding engine: a shallow embedding of the
header/IFD parser, the striped and tiled pixel decoders, the format
dispatcher, and the ReadSeeker adapter, together with theorems settling the
specification claims.

Bytes are modelled as natural numbers; a random-access byte source
(Go io.ReaderAt over a byte buffer) is the list of its bytes.  Fallible
operations return Option/Except; a Go runtime panic (index out of range,
integer division by zero) is modelled by a dedicated result value.
-/

namespace Tiff

/-- A random-access byte source: the sequence of bytes it serves. -/
abbrev Source := List Nat

/-- Model of ReadAt on a byte buffer: returns exactly `size` bytes starting
at `off`, or fails when the requested range is not fully available
(Go returns a non-nil error, e.g. io.EOF, in that case). -/
def readAt (src : Source) (off size : Nat) : Option (List Nat) :=
  if off + size ≤ src.length then some ((src.drop off).take size) else none

/-- ReadAt with a Go int64 offset: negative offsets fail. -/
def readAtI (src : Source) (off : Int) (size : Nat) : Option (List Nat) :=
  if off < 0 then none else readAt src off.toNat size

/-- TIFF byte order selected by the file marker. -/
inductive ByteOrder
  | little
  | big
deriving DecidableEq, Repr

/-- binary.ByteOrder.Uint16 over two bytes. -/
def u16 (bo : ByteOrder) (b0 b1 : Nat) : Nat :=
  match bo with
  | .little => b0 + 256 * b1
  | .big => 256 * b0 + b1

/-- binary.ByteOrder.Uint32 over four bytes. -/
def u32 (bo : ByteOrder) (b0 b1 b2 b3 : Nat) : Nat :=
  match bo with
  | .little => b0 + 256 * b1 + 65536 * b2 + 16777216 * b3
  | .big => 16777216 * b0 + 65536 * b1 + 256 * b2 + b3

/-- Decode a buffer as consecutive 16-bit values (readShortArray's loop). -/
def u16List (bo : ByteOrder) : List Nat → List Nat
  | b0 :: b1 :: rest => u16 bo b0 b1 :: u16List bo rest
  | _ => []

/-- Decode a buffer as consecutive 32-bit values (readLongArray's loop). -/
def u32List (bo : ByteOrder) : List Nat → List Nat
  | b0 :: b1 :: b2 :: b3 :: rest => u32 bo b0 b1 b2 b3 :: u32List bo rest
  | _ => []

namespace photometric

/-- photometric.Unknown. -/
def unknown : Int := -1

/-- photometric.BlackIsZero. -/
def blackIsZero : Int := 1

/-- photometric.RGB. -/
def rgb : Int := 2

end photometric

namespace compression

/-- compression.Unknown. -/
def unknown : Int := -1

/-- compression.None. -/
def noCompression : Int := 1

/-- compression.Deflate. -/
def deflate : Int := 8

end compression

namespace planarconfig

/-- planarconfig.Unknown. -/
def unknown : Int := -1

end planarconfig

/-- The parsed TIFF IFD metadata record (impl.TiffHeader).  Fields written
only from unsigned 16/32-bit reads are Nat; fields whose Go zero/sentinel
value is -1 are Int.  Defaults are the values Go leaves in place when the
corresponding tag is absent. -/
structure TiffHeader where
  byteOrder : ByteOrder := .little
  width : Nat := 0
  height : Nat := 0
  samplesPerPixel : Int := -1
  bitsPerSample : List Nat := []
  photometric : Int := -1
  compression : Int := -1
  planarConfig : Int := -1
  rowsPerStrip : Nat := 0
  stripOffsets : List Nat := []
  stripByteCounts : List Nat := []
  tileWidth : Nat := 0
  tileHeight : Nat := 0
  tileOffsets : List Nat := []
  tileByteCounts : List Nat := []
deriving DecidableEq, Repr

/-- Error kinds surfaced by the engine. -/
inductive DecodeError
  | invalidHeader
  | readError
  | unsupportedCompression
  | unsupportedPhotometric
  | unsupportedSampleFormat
  | invalidLayout
deriving DecidableEq, Repr

/-- Result of a Go function that may return a value, return an error, or
crash with a runtime panic. -/
inductive GoResult (α : Type)
  | ok (a : α)
  | error (e : DecodeError)
  | panic
deriving DecidableEq, Repr

/-- The sequence of (offset, size) ReadAt requests a computation issued. -/
abbrev Trace := List (Nat × Nat)

/-- Byte-order selection from the first two header bytes: ASCII II (73 73)
or MM (77 77). -/
def byteOrderOf (b0 b1 : Nat) : Option ByteOrder :=
  if b0 = 73 ∧ b1 = 73 then some .little
  else if b0 = 77 ∧ b1 = 77 then some .big
  else none

/-- readShortArray in parseTiffHeader: count 1 uses the 16-bit value slot;
otherwise the byte count is the uint32 product count·2 — which wraps modulo
2^32 — read at the value offset, and the decode loop then takes count
16-bit values from the buffer, panicking past its end when the product
wrapped.  The second component is the sequence of ReadAt requests issued. -/
def readShortArray (bo : ByteOrder) (src : Source) (count valOffset slot16 : Nat) :
    GoResult (List Nat) × Trace :=
  if count = 1 then (.ok [slot16], [])
  else
    match readAt src valOffset (count * 2 % 2 ^ 32) with
    | none => (.error .readError, [(valOffset, count * 2 % 2 ^ 32)])
    | some buf =>
      if count * 2 ≤ buf.length then
        (.ok (u16List bo buf), [(valOffset, count * 2 % 2 ^ 32)])
      else (.panic, [(valOffset, count * 2 % 2 ^ 32)])

/-- readLongArray in parseTiffHeader: count 1 uses the 32-bit value slot
itself; otherwise the byte count is the uint32 product count·4 — which
wraps modulo 2^32 — read at the value offset, and the decode loop then
takes count 32-bit values from the buffer, panicking past its end when the
product wrapped.  The second component is the ReadAt requests issued. -/
def readLongArray (bo : ByteOrder) (src : Source) (count valOffset : Nat) :
    GoResult (List Nat) × Trace :=
  if count = 1 then (.ok [valOffset], [])
  else
    match readAt src valOffset (count * 4 % 2 ^ 32) with
    | none => (.error .readError, [(valOffset, count * 4 % 2 ^ 32)])
    | some buf =>
      if count * 4 ≤ buf.length then
        (.ok (u32List bo buf), [(valOffset, count * 4 % 2 ^ 32)])
      else (.panic, [(valOffset, count * 4 % 2 ^ 32)])

/-- The tag identifier of a 12-byte IFD entry (bytes 0..1). -/
def entryTag (bo : ByteOrder) (entry : List Nat) : Nat :=
  u16 bo entry[0]! entry[1]!

/-- The value count of a 12-byte IFD entry (bytes 4..7). -/
def entryCount (bo : ByteOrder) (entry : List Nat) : Nat :=
  u32 bo entry[4]! entry[5]! entry[6]! entry[7]!

/-- The 32-bit value slot of a 12-byte IFD entry (bytes 8..11): an inline
value or the offset of an out-of-line array. -/
def entryValOffset (bo : ByteOrder) (entry : List Nat) : Nat :=
  u32 bo entry[8]! entry[9]! entry[10]! entry[11]!

/-- The first 16 bits of the value slot of a 12-byte IFD entry. -/
def entrySlot16 (bo : ByteOrder) (entry : List Nat) : Nat :=
  u16 bo entry[8]! entry[9]!

/-- One iteration of parseTiffHeader's entry loop: dispatch a 12-byte IFD
entry on its tag and update the metadata record.  Unrecognized tags leave
the record unchanged.  The second component is the sequence of ReadAt
requests this entry caused. -/
def processEntry (bo : ByteOrder) (src : Source) (entry : List Nat)
    (hdr : TiffHeader) : GoResult TiffHeader × Trace :=
  if entryTag bo entry = 256 then
    (.ok { hdr with width := entryValOffset bo entry }, [])
  else if entryTag bo entry = 257 then
    (.ok { hdr with height := entryValOffset bo entry }, [])
  else if entryTag bo entry = 258 then
    match readShortArray bo src (entryCount bo entry) (entryValOffset bo entry)
        (entrySlot16 bo entry) with
    | (.ok a, tr2) => (.ok { hdr with bitsPerSample := a }, tr2)
    | (.error e, tr2) => (.error e, tr2)
    | (.panic, tr2) => (.panic, tr2)
  else if entryTag bo entry = 259 then
    (.ok { hdr with compression := (entrySlot16 bo entry : Int) }, [])
  else if entryTag bo entry = 262 then
    (.ok { hdr with photometric := (entrySlot16 bo entry : Int) }, [])
  else if entryTag bo entry = 273 then
    match readLongArray bo src (entryCount bo entry) (entryValOffset bo entry) with
    | (.ok a, tr2) => (.ok { hdr with stripOffsets := a }, tr2)
    | (.error e, tr2) => (.error e, tr2)
    | (.panic, tr2) => (.panic, tr2)
  else if entryTag bo entry = 277 then
    (.ok { hdr with samplesPerPixel := (entrySlot16 bo entry : Int) }, [])
  else if entryTag bo entry = 278 then
    (.ok { hdr with rowsPerStrip := entryValOffset bo entry }, [])
  else if entryTag bo entry = 279 then
    match readLongArray bo src (entryCount bo entry) (entryValOffset bo entry) with
    | (.ok a, tr2) => (.ok { hdr with stripByteCounts := a }, tr2)
    | (.error e, tr2) => (.error e, tr2)
    | (.panic, tr2) => (.panic, tr2)
  else if entryTag bo entry = 284 then
    (.ok { hdr with planarConfig := (entrySlot16 bo entry : Int) }, [])
  else if entryTag bo entry = 322 then
    (.ok { hdr with tileWidth := entryValOffset bo entry }, [])
  else if entryTag bo entry = 323 then
    (.ok { hdr with tileHeight := entryValOffset bo entry }, [])
  else if entryTag bo entry = 324 then
    match readLongArray bo src (entryCount bo entry) (entryValOffset bo entry) with
    | (.ok a, tr2) => (.ok { hdr with tileOffsets := a }, tr2)
    | (.error e, tr2) => (.error e, tr2)
    | (.panic, tr2) => (.panic, tr2)
  else if entryTag bo entry = 325 then
    match readLongArray bo src (entryCount bo entry) (entryValOffset bo entry) with
    | (.ok a, tr2) => (.ok { hdr with tileByteCounts := a }, tr2)
    | (.error e, tr2) => (.error e, tr2)
    | (.panic, tr2) => (.panic, tr2)
  else (.ok hdr, [])

/-- parseTiffHeader's entry loop: process `n` consecutive 12-byte entries
from the entry table, propagating the first error and concatenating the
ReadAt requests the entries caused. -/
def processEntries (bo : ByteOrder) (src : Source) :
    Nat → List Nat → TiffHeader → GoResult TiffHeader × Trace
  | 0, _, hdr => (.ok hdr, [])
  | n + 1, buf, hdr =>
    match processEntry bo src (buf.take 12) hdr with
    | (.ok hdr2, t1) =>
      match processEntries bo src n (buf.drop 12) hdr2 with
      | (r, t2) => (r, t1 ++ t2)
    | (.error e, t1) => (.error e, t1)
    | (.panic, t1) => (.panic, t1)

/-- impl.parseTiffHeader, instrumented with the trace of ReadAt requests it
issues: read the 8-byte header, select byte order from the II/MM marker,
check the version word 42, then read the IFD entry count and table at the
32-bit offset taken from bytes 4..7, and fold the entries. -/
def parseTiffHeaderT (src : Source) : GoResult TiffHeader × Trace :=
  match readAt src 0 8 with
  | none => (.error .readError, [(0, 8)])
  | some hd =>
    match byteOrderOf hd[0]! hd[1]! with
    | none => (.error .invalidHeader, [(0, 8)])
    | some bo =>
      if u16 bo hd[2]! hd[3]! ≠ 42 then (.error .invalidHeader, [(0, 8)])
      else
        let ifdOffset := u32 bo hd[4]! hd[5]! hd[6]! hd[7]!
        match readAt src ifdOffset 2 with
        | none => (.error .readError, [(0, 8), (ifdOffset, 2)])
        | some ecr =>
          let numEntries := u16 bo ecr[0]! ecr[1]!
          match readAt src (ifdOffset + 2) (numEntries * 12) with
          | none =>
            (.error .readError,
              [(0, 8), (ifdOffset, 2), (ifdOffset + 2, numEntries * 12)])
          | some entriesRaw =>
            match processEntries bo src numEntries entriesRaw { byteOrder := bo } with
            | (r, t) =>
              (r, [(0, 8), (ifdOffset, 2), (ifdOffset + 2, numEntries * 12)] ++ t)

/-- impl.parseTiffHeader (result only). -/
def parseTiffHeader (src : Source) : GoResult TiffHeader :=
  (parseTiffHeaderT src).1

/-- The validation stage of impl.LoadStripedTiff, applied to the parsed
metadata record.  Mirrors the Go checks in order: compression, photometric,
per-photometric sample format (where an absent BitsPerSample tag makes the
BitsPerSample[0] access a runtime panic, thanks to short-circuit
evaluation of the disjunction), and strip layout.  On success the decoder
wraps the header (and the source). -/
def checkStriped (h : TiffHeader) : GoResult TiffHeader :=
  if h.compression ≠ compression.noCompression then .error .unsupportedCompression
  else if h.photometric ≠ photometric.rgb ∧ h.photometric ≠ photometric.blackIsZero then
    .error .unsupportedPhotometric
  else if h.photometric = photometric.blackIsZero then
    if h.samplesPerPixel ≠ 1 then .error .unsupportedSampleFormat
    else
      match h.bitsPerSample with
      | [] => .panic
      | b :: _ =>
        if b ≠ 8 then .error .unsupportedSampleFormat
        else if h.stripOffsets = [] ∨ h.stripOffsets.length ≠ h.stripByteCounts.length then
          .error .invalidLayout
        else .ok h
  else if h.photometric = photometric.rgb then
    if h.samplesPerPixel ≠ 3 then .error .unsupportedSampleFormat
    else
      match h.bitsPerSample with
      | [] => .panic
      | b :: _ =>
        if b ≠ 8 then .error .unsupportedSampleFormat
        else if h.stripOffsets = [] ∨ h.stripOffsets.length ≠ h.stripByteCounts.length then
          .error .invalidLayout
        else .ok h
  else .error .unsupportedSampleFormat

/-- The validation stage of impl.LoadTiledTiff: compression must be None or
Deflate, then the same photometric/sample-format checks as the striped
loader (with the same BitsPerSample[0] panic possibility), then the tile
layout check. -/
def checkTiled (h : TiffHeader) : GoResult TiffHeader :=
  if h.compression ≠ compression.noCompression ∧ h.compression ≠ compression.deflate then
    .error .unsupportedCompression
  else if h.photometric ≠ photometric.rgb ∧ h.photometric ≠ photometric.blackIsZero then
    .error .unsupportedPhotometric
  else if h.photometric = photometric.blackIsZero then
    if h.samplesPerPixel ≠ 1 then .error .unsupportedSampleFormat
    else
      match h.bitsPerSample with
      | [] => .panic
      | b :: _ =>
        if b ≠ 8 then .error .unsupportedSampleFormat
        else if h.tileOffsets = [] ∨ h.tileOffsets.length ≠ h.tileByteCounts.length then
          .error .invalidLayout
        else .ok h
  else if h.photometric = photometric.rgb then
    if h.samplesPerPixel ≠ 3 then .error .unsupportedSampleFormat
    else
      match h.bitsPerSample with
      | [] => .panic
      | b :: _ =>
        if b ≠ 8 then .error .unsupportedSampleFormat
        else if h.tileOffsets = [] ∨ h.tileOffsets.length ≠ h.tileByteCounts.length then
          .error .invalidLayout
        else .ok h
  else .error .unsupportedSampleFormat

/-- impl.LoadStripedTiff: parse the header, then validate.  A parse error
is returned as-is; a panic (from the parser or the validation) propagates. -/
def loadStripedTiff (src : Source) : GoResult TiffHeader :=
  match parseTiffHeader src with
  | .error e => .error e
  | .panic => .panic
  | .ok h => checkStriped h

/-- impl.LoadTiledTiff: parse the header, then validate. -/
def loadTiledTiff (src : Source) : GoResult TiffHeader :=
  match parseTiffHeader src with
  | .error e => .error e
  | .panic => .panic
  | .ok h => checkTiled h

/-- What tiff.Decode hands back to the caller: one of the two lazy decoders
(wrapping the header it validated) or the external fallback decoder's
eager result, which is opaque to this engine. -/
inductive DecodeResult
  | striped (h : TiffHeader)
  | tiled (h : TiffHeader)
  | fallback
deriving DecidableEq, Repr

/-- tiff.Decode on a random-access byte source: try the striped loader and
return its image on a nil error; otherwise try the tiled loader; otherwise
delegate to the fallback decoder.  A Go panic raised inside a loader is not
an error value and escapes Decode. -/
def decode (src : Source) : GoResult DecodeResult :=
  match loadStripedTiff src with
  | .ok h => .ok (.striped h)
  | .panic => .panic
  | .error _ =>
    match loadTiledTiff src with
    | .ok h => .ok (.tiled h)
    | .panic => .panic
    | .error _ => .ok .fallback

/-- A decoded color: the four 8-bit RGBA channels of color.RGBA. -/
structure Color where
  r : Nat
  g : Nat
  b : Nat
  a : Nat
deriving DecidableEq, Repr

/-- stripedTiff.At: locate the strip for the row, compute the byte index of
the pixel, read the samples there, and build the color.  Runtime panics
(division by RowsPerStrip = 0, StripOffsets index out of range, a failed
read, an unexpected photometric) are modelled as none. -/
def stripedAt (h : TiffHeader) (src : Source) (x y : Nat) : Option Color :=
  if h.rowsPerStrip = 0 then none
  else
    let strip := y / h.rowsPerStrip
    let localY := y % h.rowsPerStrip
    match h.stripOffsets[strip]? with
    | none => none
    | some so =>
      let idx : Int := (so : Int) + ((localY * h.width + x : Nat) : Int) * h.samplesPerPixel
      if h.photometric = photometric.rgb then
        (readAtI src idx 3).map fun buf => ⟨buf[0]!, buf[1]!, buf[2]!, 255⟩
      else if h.photometric = photometric.blackIsZero then
        (readAtI src idx 1).map fun buf => ⟨buf[0]!, buf[0]!, buf[0]!, 255⟩
      else none

/-- The bounded LRU cache of decompressed tiles (hashicorp golang-lru),
most recently used first. -/
structure LruCache where
  cap : Nat
  entries : List (Nat × List Nat)
deriving DecidableEq, Repr

/-- Cache lookup: a hit returns the stored buffer and moves the key to the
front (most recently used). -/
def LruCache.get (c : LruCache) (k : Nat) : Option (List Nat) × LruCache :=
  match c.entries.find? (fun e => e.1 == k) with
  | none => (none, c)
  | some e =>
    (some e.2, { c with entries := e :: c.entries.filter (fun e2 => !(e2.1 == k)) })

/-- Cache insertion: place the key at the front and evict beyond capacity. -/
def LruCache.add (c : LruCache) (k : Nat) (v : List Nat) : LruCache :=
  { c with entries := ((k, v) :: c.entries.filter (fun e2 => !(e2.1 == k))).take c.cap }

/-- tiledTiff.loadTile: read TileByteCounts[index] bytes at
TileOffsets[index] and, for Deflate, decompress them through the zlib
inflater (modelled as the `infl` parameter — an external library call).
Returns the tile bytes (none for a panic) together with the number of
ReadAt calls and inflater invocations performed. -/
def loadTile (infl : List Nat → Option (List Nat)) (h : TiffHeader) (src : Source)
    (index : Nat) : Option (List Nat) × Nat × Nat :=
  match h.tileOffsets[index]?, h.tileByteCounts[index]? with
  | some off, some cnt =>
    (match readAt src off cnt with
     | none => (none, 1, 0)
     | some buf =>
       if h.compression = compression.deflate then
         match infl buf with
         | none => (none, 1, 1)
         | some tile => (some tile, 1, 1)
       else (some buf, 1, 0))
  | _, _ => (none, 0, 0)

/-- The number of tile columns as computed by tiledTiff.At; the Go source
computes it as int(math.Ceil(float64(Width) / float64(TileWidth))), shown
equal to this exact ceiling division in the tilesAcross theorem. -/
def tilesAcrossSpec (w tw : Nat) : Nat := (w + tw - 1) / tw

/-- The row-major tile index tiledTiff.At computes for a pixel. -/
def tileIndexOf (h : TiffHeader) (x y : Nat) : Nat :=
  y / h.tileHeight * tilesAcrossSpec h.width h.tileWidth + x / h.tileWidth

/-- List indexing with a Go int index: negative or too large panics. -/
def byteAt (tile : List Nat) (i : Int) : Option Nat :=
  if i < 0 then none else tile[i.toNat]?

/-- The tail of tiledTiff.At: channel extraction from a resolved tile
buffer at the pixel's local offset. -/
def tilePixel (h : TiffHeader) (tile : List Nat) (x y : Nat) : Option Color :=
  let localX := x % h.tileWidth
  let localY := y % h.tileHeight
  let rowStride : Int := (h.tileWidth : Int) * h.samplesPerPixel
  let pixOffset : Int := (localY : Int) * rowStride + (localX : Int) * h.samplesPerPixel
  if h.photometric = photometric.rgb then
    match byteAt tile pixOffset, byteAt tile (pixOffset + 1), byteAt tile (pixOffset + 2) with
    | some r, some g, some b => some ⟨r, g, b, 255⟩
    | _, _, _ => none
  else if h.photometric = photometric.blackIsZero then
    match byteAt tile pixOffset with
    | some v => some ⟨v, v, v, 255⟩
    | none => none
  else none

/-- tiledTiff.At: locate the tile, resolve its decompressed buffer through
the LRU cache (calling loadTile only on a miss and storing the result),
then extract the pixel's channels from the buffer.  Returns the color (none
for a panic), the updated cache, and the number of ReadAt calls and
inflater invocations performed by this query. -/
def tiledAt (infl : List Nat → Option (List Nat)) (h : TiffHeader) (src : Source)
    (cache : LruCache) (x y : Nat) : Option Color × LruCache × Nat × Nat :=
  if h.tileWidth = 0 ∨ h.tileHeight = 0 then (none, cache, 0, 0)
  else
    let tileIndex := tileIndexOf h x y
    match LruCache.get cache tileIndex with
    | (some tile, cache1) => (tilePixel h tile x y, cache1, 0, 0)
    | (none, cache1) =>
      match loadTile infl h src tileIndex with
      | (none, rd, inf) => (none, cache1, rd, inf)
      | (some tile, rd, inf) =>
        (tilePixel h tile x y, LruCache.add cache1 tileIndex tile, rd, inf)

/-- An io.ReadSeeker as the adapter sees it: a byte buffer, a position, and
the reader's per-call chunk limit.  Any limit of at least one byte is a
legal io.Reader: Read may return fewer bytes than requested with a nil
error. -/
structure ChunkedReader where
  data : List Nat
  maxChunk : Nat
  pos : Nat
deriving DecidableEq, Repr

/-- One Read call on the ReadSeeker: at end of data it reports an error
(io.EOF, the Bool flag); otherwise it returns up to min(n, maxChunk)
available bytes with no error and advances the position. -/
def seekerRead (rs : ChunkedReader) (n : Nat) : List Nat × Bool × ChunkedReader :=
  if rs.data.length ≤ rs.pos ∧ 0 < n then ([], true, rs)
  else
    let k := min n (min rs.maxChunk (rs.data.length - rs.pos))
    ((rs.data.drop rs.pos).take k, false, { rs with pos := rs.pos + k })

/-- readerAtFromSeeker.ReadAt: seek to the offset (SeekStart with a
non-negative offset always succeeds), then issue a single Read. -/
def readAtFromSeeker (rs : ChunkedReader) (n : Nat) (off : Nat) :
    List Nat × Bool × ChunkedReader :=
  seekerRead { rs with pos := off } n

/-- Modelled from the spec: the byte index the striped pixel query must
read from, StripOffsets[y / RowsPerStrip] + ((y mod RowsPerStrip) × Width
+ x) × SamplesPerPixel. -/
def specStripedByteIndex (h : TiffHeader) (x y : Nat) : Nat :=
  (h.stripOffsets.getD (y / h.rowsPerStrip) 0) +
    ((y % h.rowsPerStrip) * h.width + x) * h.samplesPerPixel.toNat

/-- Modelled from the spec: channel extraction — an RGB triplet with full
opacity, or the single grayscale sample replicated across the three color
channels with full opacity. -/
def specColorize (p : Int) (buf : List Nat) : Color :=
  if p = photometric.rgb then ⟨buf[0]!, buf[1]!, buf[2]!, 255⟩
  else ⟨buf[0]!, buf[0]!, buf[0]!, 255⟩

/-- A rational is representable as an IEEE-754 binary64 value when it is
m·2^e with |m| ≤ 2^53 (exponent range is irrelevant at the magnitudes of
parsed 32-bit tag values). -/
def RepresentableF64 (r : ℚ) : Prop :=
  ∃ (m : ℤ) (e : ℤ), r = (m : ℚ) * (2 : ℚ) ^ e ∧ m.natAbs ≤ 2 ^ 53

/-- r is a result IEEE-754 division may produce for x: a representable
value at minimal distance from x (round to nearest, any tie-breaking). -/
def IsNearestF64 (x r : ℚ) : Prop :=
  RepresentableF64 r ∧ ∀ s : ℚ, RepresentableF64 s → |x - r| ≤ |x - s|

/-! Concrete byte sources used to instantiate the theorems.  All are
little-endian single-IFD files with 12-byte entries; tag values appear in
the comments. -/

/-- A 2×2 grayscale striped TIFF: Width 2, Height 2, BitsPerSample [8],
Compression None, BlackIsZero, StripOffsets [118], SamplesPerPixel 1,
RowsPerStrip 2, StripByteCounts [4]; pixel bytes 10 20 30 40 at 118. -/
def stripedSrc : Source :=
  [73, 73, 42, 0, 8, 0, 0, 0,
   9, 0,
   0, 1, 3, 0, 1, 0, 0, 0, 2, 0, 0, 0,
   1, 1, 3, 0, 1, 0, 0, 0, 2, 0, 0, 0,
   2, 1, 3, 0, 1, 0, 0, 0, 8, 0, 0, 0,
   3, 1, 3, 0, 1, 0, 0, 0, 1, 0, 0, 0,
   6, 1, 3, 0, 1, 0, 0, 0, 1, 0, 0, 0,
   17, 1, 4, 0, 1, 0, 0, 0, 118, 0, 0, 0,
   21, 1, 3, 0, 1, 0, 0, 0, 1, 0, 0, 0,
   22, 1, 3, 0, 1, 0, 0, 0, 2, 0, 0, 0,
   23, 1, 4, 0, 1, 0, 0, 0, 4, 0, 0, 0,
   10, 20, 30, 40]

/-- The metadata record stripedSrc parses to. -/
def hStriped : TiffHeader :=
  { byteOrder := .little, width := 2, height := 2, samplesPerPixel := 1,
    bitsPerSample := [8], photometric := 1, compression := 1, planarConfig := -1,
    rowsPerStrip := 2, stripOffsets := [118], stripByteCounts := [4],
    tileWidth := 0, tileHeight := 0, tileOffsets := [], tileByteCounts := [] }

/-- A 2×2 grayscale tiled, Deflate-compressed TIFF: Width 2, Height 2,
BitsPerSample [8], Compression Deflate, BlackIsZero, SamplesPerPixel 1,
TileWidth 2, TileLength 2, TileOffsets [130], TileByteCounts [4];
compressed tile bytes 99 99 99 99 at 130. -/
def tiledSrc : Source :=
  [73, 73, 42, 0, 8, 0, 0, 0,
   10, 0,
   0, 1, 3, 0, 1, 0, 0, 0, 2, 0, 0, 0,
   1, 1, 3, 0, 1, 0, 0, 0, 2, 0, 0, 0,
   2, 1, 3, 0, 1, 0, 0, 0, 8, 0, 0, 0,
   3, 1, 3, 0, 1, 0, 0, 0, 8, 0, 0, 0,
   6, 1, 3, 0, 1, 0, 0, 0, 1, 0, 0, 0,
   21, 1, 3, 0, 1, 0, 0, 0, 1, 0, 0, 0,
   66, 1, 3, 0, 1, 0, 0, 0, 2, 0, 0, 0,
   67, 1, 3, 0, 1, 0, 0, 0, 2, 0, 0, 0,
   68, 1, 4, 0, 1, 0, 0, 0, 130, 0, 0, 0,
   69, 1, 4, 0, 1, 0, 0, 0, 4, 0, 0, 0,
   99, 99, 99, 99]

/-- The metadata record tiledSrc parses to. -/
def hTiled : TiffHeader :=
  { byteOrder := .little, width := 2, height := 2, samplesPerPixel := 1,
    bitsPerSample := [8], photometric := 1, compression := 8, planarConfig := -1,
    rowsPerStrip := 0, stripOffsets := [], stripByteCounts := [],
    tileWidth := 2, tileHeight := 2, tileOffsets := [130], tileByteCounts := [4] }

/-- A mock zlib inflater for the tiled witnesses: any input decompresses to
the fixed four-byte tile 10 20 30 40. -/
def mockInflate : List Nat → Option (List Nat) := fun _ => some [10, 20, 30, 40]

/-- The fresh tile cache lru.New(200) gives a tiled decoder. -/
def cache200 : LruCache := { cap := 200, entries := [] }

/-- stripedSrc with the BitsPerSample entry removed (8 entries, pixel data
at 106): the parsed record keeps the empty BitsPerSample default while
every other striped precondition holds. -/
def srcNoBits : Source :=
  [73, 73, 42, 0, 8, 0, 0, 0,
   8, 0,
   0, 1, 3, 0, 1, 0, 0, 0, 2, 0, 0, 0,
   1, 1, 3, 0, 1, 0, 0, 0, 2, 0, 0, 0,
   3, 1, 3, 0, 1, 0, 0, 0, 1, 0, 0, 0,
   6, 1, 3, 0, 1, 0, 0, 0, 1, 0, 0, 0,
   17, 1, 4, 0, 1, 0, 0, 0, 106, 0, 0, 0,
   21, 1, 3, 0, 1, 0, 0, 0, 1, 0, 0, 0,
   22, 1, 3, 0, 1, 0, 0, 0, 2, 0, 0, 0,
   23, 1, 4, 0, 1, 0, 0, 0, 4, 0, 0, 0,
   10, 20, 30, 40]

/-- tiledSrc with the BitsPerSample entry removed (9 entries, tile data at
118): the tiled analogue of srcNoBits. -/
def srcNoBitsTiled : Source :=
  [73, 73, 42, 0, 8, 0, 0, 0,
   9, 0,
   0, 1, 3, 0, 1, 0, 0, 0, 2, 0, 0, 0,
   1, 1, 3, 0, 1, 0, 0, 0, 2, 0, 0, 0,
   3, 1, 3, 0, 1, 0, 0, 0, 8, 0, 0, 0,
   6, 1, 3, 0, 1, 0, 0, 0, 1, 0, 0, 0,
   21, 1, 3, 0, 1, 0, 0, 0, 1, 0, 0, 0,
   66, 1, 3, 0, 1, 0, 0, 0, 2, 0, 0, 0,
   67, 1, 3, 0, 1, 0, 0, 0, 2, 0, 0, 0,
   68, 1, 4, 0, 1, 0, 0, 0, 118, 0, 0, 0,
   69, 1, 4, 0, 1, 0, 0, 0, 4, 0, 0, 0,
   10, 20, 30, 40]

/-- stripedSrc with the RowsPerStrip entry removed (8 entries, pixel data
at 106): the parsed record keeps the zero RowsPerStrip default while every
striped construction check passes. -/
def srcNoRps : Source :=
  [73, 73, 42, 0, 8, 0, 0, 0,
   8, 0,
   0, 1, 3, 0, 1, 0, 0, 0, 2, 0, 0, 0,
   1, 1, 3, 0, 1, 0, 0, 0, 2, 0, 0, 0,
   2, 1, 3, 0, 1, 0, 0, 0, 8, 0, 0, 0,
   3, 1, 3, 0, 1, 0, 0, 0, 1, 0, 0, 0,
   6, 1, 3, 0, 1, 0, 0, 0, 1, 0, 0, 0,
   17, 1, 4, 0, 1, 0, 0, 0, 106, 0, 0, 0,
   21, 1, 3, 0, 1, 0, 0, 0, 1, 0, 0, 0,
   23, 1, 4, 0, 1, 0, 0, 0, 4, 0, 0, 0,
   10, 20, 30, 40]

/-- The metadata record srcNoRps parses to: RowsPerStrip is 0. -/
def hNoRps : TiffHeader :=
  { byteOrder := .little, width := 2, height := 2, samplesPerPixel := 1,
    bitsPerSample := [8], photometric := 1, compression := 1, planarConfig := -1,
    rowsPerStrip := 0, stripOffsets := [106], stripByteCounts := [4],
    tileWidth := 0, tileHeight := 0, tileOffsets := [], tileByteCounts := [] }

/-- tiledSrc with the TileLength entry removed (9 entries, tile data at
118): the parsed record keeps the zero TileHeight default while every tiled
construction check passes. -/
def srcNoTileLen : Source :=
  [73, 73, 42, 0, 8, 0, 0, 0,
   9, 0,
   0, 1, 3, 0, 1, 0, 0, 0, 2, 0, 0, 0,
   1, 1, 3, 0, 1, 0, 0, 0, 2, 0, 0, 0,
   2, 1, 3, 0, 1, 0, 0, 0, 8, 0, 0, 0,
   3, 1, 3, 0, 1, 0, 0, 0, 8, 0, 0, 0,
   6, 1, 3, 0, 1, 0, 0, 0, 1, 0, 0, 0,
   21, 1, 3, 0, 1, 0, 0, 0, 1, 0, 0, 0,
   66, 1, 3, 0, 1, 0, 0, 0, 2, 0, 0, 0,
   68, 1, 4, 0, 1, 0, 0, 0, 118, 0, 0, 0,
   69, 1, 4, 0, 1, 0, 0, 0, 4, 0, 0, 0,
   10, 20, 30, 40]

/-- The metadata record srcNoTileLen parses to: TileHeight is 0. -/
def hNoTileLen : TiffHeader :=
  { byteOrder := .little, width := 2, height := 2, samplesPerPixel := 1,
    bitsPerSample := [8], photometric := 1, compression := 8, planarConfig := -1,
    rowsPerStrip := 0, stripOffsets := [], stripByteCounts := [],
    tileWidth := 2, tileHeight := 0, tileOffsets := [118], tileByteCounts := [4] }

/-- Eight bytes that are neither an II nor an MM marker. -/
def srcBadMagic : Source := [88, 88, 88, 88, 88, 88, 88, 88]

/-- A little-endian header whose version word is 43 instead of 42. -/
def srcBadVersion : Source := [73, 73, 43, 0, 8, 0, 0, 0]

/-- A two-byte source: its first two bytes are not a valid marker, and the
eight-byte header read cannot be satisfied. -/
def srcShort : Source := [88, 88]

/-- A metadata record with the RGB sample-count requirement satisfied but
an empty BitsPerSample array and an otherwise valid striped layout. -/
def hEmptyBitsRgb : TiffHeader :=
  { byteOrder := .little, width := 2, height := 2, samplesPerPixel := 3,
    bitsPerSample := [], photometric := 2, compression := 1, planarConfig := -1,
    rowsPerStrip := 2, stripOffsets := [8], stripByteCounts := [12],
    tileWidth := 0, tileHeight := 0, tileOffsets := [], tileByteCounts := [] }

/-- The metadata record srcNoBits parses to: BitsPerSample is empty while
every other striped requirement holds. -/
def hNoBits : TiffHeader :=
  { byteOrder := .little, width := 2, height := 2, samplesPerPixel := 1,
    bitsPerSample := [], photometric := 1, compression := 1, planarConfig := -1,
    rowsPerStrip := 2, stripOffsets := [106], stripByteCounts := [4],
    tileWidth := 0, tileHeight := 0, tileOffsets := [], tileByteCounts := [] }

/-- The metadata record srcNoBitsTiled parses to. -/
def hNoBitsTiled : TiffHeader :=
  { byteOrder := .little, width := 2, height := 2, samplesPerPixel := 1,
    bitsPerSample := [], photometric := 1, compression := 8, planarConfig := -1,
    rowsPerStrip := 0, stripOffsets := [], stripByteCounts := [],
    tileWidth := 2, tileHeight := 2, tileOffsets := [118], tileByteCounts := [4] }

/-- The cache state after the first pixel query on the tiled witness
image: the decompressed tile of index 0 is retained. -/
def cacheAfterFirst : LruCache := { cap := 200, entries := [(0, [10, 20, 30, 40])] }

/-- The tag identifiers parseTiffHeader dispatches on; every other tag is
skipped. -/
def recognizedTags : List Nat :=
  [256, 257, 258, 259, 262, 273, 277, 278, 279, 284, 322, 323, 324, 325]

/-- Modelled from the spec: which header field each of the four long-array
tags (StripOffsets, StripByteCounts, TileOffsets, TileByteCounts)
populates. -/
def setLongArrayTag (t : Nat) (hdr : TiffHeader) (a : List Nat) : TiffHeader :=
  if t = 273 then { hdr with stripOffsets := a }
  else if t = 279 then { hdr with stripByteCounts := a }
  else if t = 324 then { hdr with tileOffsets := a }
  else { hdr with tileByteCounts := a }

/-! Theorems settling the claims. -/

set_option maxRecDepth 100000 in
/-- C1, counterexample.  The claim states that errors other than the four
construction-time rejections — here InvalidHeader — propagate to Decode's
caller uninterpreted.  On a source whose first bytes are not a TIFF marker
both loaders fail with InvalidHeader, yet decode absorbs the error and
returns the fallback decoder's image: no error reaches the caller. -/
theorem decode_swallows_invalid_header :
    loadStripedTiff srcBadMagic = .error .invalidHeader ∧
    loadTiledTiff srcBadMagic = .error .invalidHeader ∧
    decode srcBadMagic = .ok .fallback := by
  decide

set_option maxRecDepth 100000 in
/-- C4 (code bug).  A parsed record whose BitsPerSample tag was absent (the
field keeps its empty default) but which is otherwise a valid grayscale
image makes both loaders crash with an index-out-of-range panic at the
BitsPerSample[0] access, instead of returning the UnsupportedSampleFormat
rejection the spec prescribes. -/
theorem checkers_crash_on_empty_bits :
    parseTiffHeader srcNoBits = .ok hNoBits ∧
    hNoBits.bitsPerSample = [] ∧ hNoBits.samplesPerPixel = 1 ∧
    hNoBits.photometric = photometric.blackIsZero ∧
    hNoBits.compression = compression.noCompression ∧
    checkStriped hNoBits = .panic ∧
    loadStripedTiff srcNoBits = .panic ∧
    parseTiffHeader srcNoBitsTiled = .ok hNoBitsTiled ∧
    checkTiled hNoBitsTiled = .panic ∧
    loadTiledTiff srcNoBitsTiled = .panic := by
  decide

set_option maxRecDepth 100000 in
/-- C5, counterexample.  Construction does not refuse metadata whose
RowsPerStrip (striped) or TileHeight (tiled) kept its zero default: both
loaders succeed on such records, and the in-bounds pixel query then crashes
with a division by zero instead of answering. -/
theorem construction_accepts_zero_geometry :
    loadStripedTiff srcNoRps = .ok hNoRps ∧ hNoRps.rowsPerStrip = 0 ∧
    loadTiledTiff srcNoTileLen = .ok hNoTileLen ∧ hNoTileLen.tileHeight = 0 ∧
    stripedAt hNoRps srcNoRps 0 0 = none ∧
    (tiledAt mockInflate hNoTileLen srcNoTileLen cache200 0 0).1 = none := by
  decide

/-- C6, counterexample.  On a record with the RGB sample count satisfied
but BitsPerSample empty, the bits-per-sample requirement is unmet, yet
striped construction does not fail with UnsupportedSampleFormat — it
crashes with an index-out-of-range panic. -/
theorem checkStriped_panics_not_sampleformat :
    hEmptyBitsRgb.bitsPerSample = [] ∧
    checkStriped hEmptyBitsRgb = .panic ∧
    checkStriped hEmptyBitsRgb ≠ .error .unsupportedSampleFormat := by
  decide

/-- C7, counterexample.  A two-byte source starts with bytes that are
neither II nor MM, yet parseTiffHeader does not fail with InvalidHeader:
the initial eight-byte header read fails first and that read error is
returned instead. -/
theorem parseHeader_short_source_read_error :
    byteOrderOf srcShort[0]! srcShort[1]! = none ∧
    parseTiffHeaderT srcShort = (.error .readError, [(0, 8)]) ∧
    DecodeError.readError ≠ DecodeError.invalidHeader := by
  decide

/-- C8 (code bug).  The ReadSeeker adapter issues a single Read after the
seek, and io.Reader explicitly permits Read to return fewer bytes than
requested with a nil error.  Over a two-byte stream whose reader hands out
at most one byte per call, ReadAt for two bytes at offset zero returns one
byte and no error — a short read without an error, violating the
io.ReaderAt contract and the engine's full-length-or-error protocol. -/
theorem readAtFromSeeker_short_read_no_error :
    readAtFromSeeker { data := [7, 9], maxChunk := 1, pos := 0 } 2 0 =
      ([7], false, { data := [7, 9], maxChunk := 1, pos := 1 }) ∧
    ([7] : List Nat).length ≠ 2 := by
  decide

/-- Inversion of a successful striped validation: the result wraps the same
header, and every construction precondition holds. -/
lemma checkStriped_ok_inv (h h2 : TiffHeader) (hok : checkStriped h = .ok h2) :
    h2 = h ∧ h.compression = compression.noCompression ∧
    ((h.photometric = photometric.blackIsZero ∧ h.samplesPerPixel = 1) ∨
     (h.photometric = photometric.rgb ∧ h.samplesPerPixel = 3)) ∧
    (∃ l, h.bitsPerSample = 8 :: l) ∧
    h.stripOffsets ≠ [] ∧ h.stripOffsets.length = h.stripByteCounts.length := by
  unfold checkStriped at hok
  repeat' split at hok
  all_goals simp_all

/-- Inversion of a successful tiled validation. -/
lemma checkTiled_ok_inv (h h2 : TiffHeader) (hok : checkTiled h = .ok h2) :
    h2 = h ∧
    (h.compression = compression.noCompression ∨ h.compression = compression.deflate) ∧
    ((h.photometric = photometric.blackIsZero ∧ h.samplesPerPixel = 1) ∨
     (h.photometric = photometric.rgb ∧ h.samplesPerPixel = 3)) ∧
    (∃ l, h.bitsPerSample = 8 :: l) ∧
    h.tileOffsets ≠ [] ∧ h.tileOffsets.length = h.tileByteCounts.length := by
  unfold checkTiled at hok
  repeat' split at hok
  all_goals simp_all
  all_goals tauto

set_option maxRecDepth 1000000 in
/-- C2, counterexample.  The claim quantifies over every successfully
constructed striped decoder and every in-bounds query, but construction
accepts a record whose RowsPerStrip kept its zero default: on that decoder
the in-bounds query (0, 0) panics with a division by zero while the spec's
byte-index read succeeds and yields a color — so At does not perform the
claimed read. -/
theorem stripedAt_zero_rps_diverges_from_spec :
    loadStripedTiff srcNoRps = .ok hNoRps ∧
    checkStriped hNoRps = .ok hNoRps ∧
    0 < hNoRps.width ∧ 0 < hNoRps.height ∧
    stripedAt hNoRps srcNoRps 0 0 = none ∧
    (readAt srcNoRps (specStripedByteIndex hNoRps 0 0)
        hNoRps.samplesPerPixel.toNat).map (specColorize hNoRps.photometric) =
      some ⟨10, 10, 10, 255⟩ := by
  decide

/-- C2, amended.  On a successfully constructed striped decoder, an
in-bounds pixel query — provided additionally that RowsPerStrip is
positive and the strip index y / RowsPerStrip falls within StripOffsets,
conditions construction does not guarantee (see the counterexample) — is
exactly a read of SamplesPerPixel bytes at the byte index
StripOffsets[y / RowsPerStrip] + ((y mod RowsPerStrip)·Width + x)·SamplesPerPixel,
colorized per the photometric interpretation: an RGB triplet with full
opacity, or the grayscale sample replicated across the channels. -/
theorem stripedAt_reads_spec_index (h : TiffHeader) (src : Source) (x y : Nat)
    (hok : checkStriped h = .ok h)
    (hx : x < h.width) (hy : y < h.height)
    (hrps : h.rowsPerStrip ≠ 0)
    (hstrip : y / h.rowsPerStrip < h.stripOffsets.length) :
    stripedAt h src x y =
      (readAt src (specStripedByteIndex h x y) h.samplesPerPixel.toNat).map
        (specColorize h.photometric) := by
  obtain ⟨-, hcomp, hphoto, ⟨l, hbits⟩, hso, hlen⟩ := checkStriped_ok_inv h h hok
  have hget : h.stripOffsets[y / h.rowsPerStrip]? =
      some (h.stripOffsets.getD (y / h.rowsPerStrip) 0) := by
    rw [List.getD_eq_getElem?_getD, List.getElem?_eq_getElem hstrip]
    rfl
  rcases hphoto with ⟨hp, hs⟩ | ⟨hp, hs⟩
  · simp only [stripedAt, if_neg hrps, hget, hp, hs]
    have hidx2 : (((h.stripOffsets.getD (y / h.rowsPerStrip) 0) : Int) +
        ((y % h.rowsPerStrip * h.width + x : Nat) : Int) * 1) =
        ((specStripedByteIndex h x y : Nat) : Int) := by
      simp [specStripedByteIndex, hs]
    have hne : ¬(photometric.blackIsZero = photometric.rgb) := by decide
    rw [if_neg hne, hidx2, readAtI, if_neg (not_lt.2 (Int.natCast_nonneg _)),
      Int.toNat_natCast, Int.toNat_one]
    cases readAt src (specStripedByteIndex h x y) 1 with
    | none => rfl
    | some buf => simp [specColorize, if_neg hne]
  · simp only [stripedAt, if_neg hrps, hget, hp, hs]
    have hidx2 : (((h.stripOffsets.getD (y / h.rowsPerStrip) 0) : Int) +
        ((y % h.rowsPerStrip * h.width + x : Nat) : Int) * 3) =
        ((specStripedByteIndex h x y : Nat) : Int) := by
      simp [specStripedByteIndex, hs]
    rw [if_pos trivial, hidx2, readAtI, if_neg (not_lt.2 (Int.natCast_nonneg _)),
      Int.toNat_natCast]
    have h3 : (3 : Int).toNat = 3 := rfl
    rw [h3]
    cases readAt src (specStripedByteIndex h x y) 3 with
    | none => rfl
    | some buf => simp [specColorize, photometric.rgb]

set_option maxRecDepth 100000 in
/-- Witness for C2: the striped witness image, queried at (1, 1), reads one
byte at StripOffsets[0] + (1·2 + 1)·1 = 121 and replicates it. -/
theorem stripedAt_reads_spec_index_witness :
    stripedAt hStriped stripedSrc 1 1 =
      (readAt stripedSrc (specStripedByteIndex hStriped 1 1)
        hStriped.samplesPerPixel.toNat).map (specColorize hStriped.photometric) :=
  stripedAt_reads_spec_index hStriped stripedSrc 1 1 (by decide) (by decide)
    (by decide) (by decide) (by decide)

/-- A lookup does not change the cache capacity. -/
lemma LruCache.cap_get (c : LruCache) (k : Nat) : ((c.get k).2).cap = c.cap := by
  unfold LruCache.get
  cases c.entries.find? (fun e => e.1 == k) <;> simp

/-- After an insertion into a cache of positive capacity, looking the key
up hits and returns the inserted buffer. -/
lemma LruCache.get_add_fst (c : LruCache) (k : Nat) (v : List Nat) (hcap : 0 < c.cap) :
    ((c.add k v).get k).1 = some v := by
  unfold LruCache.add LruCache.get
  obtain ⟨n, hn⟩ : ∃ n, c.cap = n + 1 := ⟨c.cap - 1, by omega⟩
  simp only [hn, List.take_succ_cons, List.find?]
  simp

/-- After a hit, looking the same key up in the returned cache hits again
with the same buffer. -/
lemma LruCache.get_fst_again (c : LruCache) (k : Nat) (v : List Nat) (c1 : LruCache)
    (h : c.get k = (some v, c1)) : (c1.get k).1 = some v := by
  unfold LruCache.get at h ⊢
  cases hf : c.entries.find? (fun e => e.1 == k) with
  | none => rw [hf] at h; simp at h
  | some e =>
    rw [hf] at h
    have he : (e.1 == k) = true := by
      have := List.find?_some hf
      simpa using this
    have hv : e.2 = v := by simpa using congrArg Prod.fst h
    have hc : c1 = { c with entries := e :: c.entries.filter (fun e2 => !(e2.1 == k)) } := by
      have := congrArg Prod.snd h
      simp at this
      exact this.symm
    subst hc
    simp [List.find?, he, hv]

/-- C3.  On a successfully constructed tiled decoder, once a pixel query
has resolved its tile (reading and, for Deflate, decompressing it), any
immediately following query into the same tile is answered from the cache:
it performs zero ReadAt calls and zero inflater invocations, and the same
query returns the same color. -/
theorem tiledAt_cache_hit_no_reread
    (h : TiffHeader) (src : Source) (infl : List Nat → Option (List Nat))
    (cache : LruCache) (x y x2 y2 : Nat) (c : Color) (cache2 : LruCache) (rd inf : Nat)
    (hok : checkTiled h = .ok h)
    (hcap : cache.cap = 200)
    (h1 : tiledAt infl h src cache x y = (some c, cache2, rd, inf))
    (hsame : tileIndexOf h x2 y2 = tileIndexOf h x y) :
    (tiledAt infl h src cache2 x2 y2).2.2 = (0, 0) ∧
    (x2 = x → y2 = y → (tiledAt infl h src cache2 x2 y2).1 = some c) := by
  have hdim : ¬(h.tileWidth = 0 ∨ h.tileHeight = 0) := by
    intro hd
    rw [tiledAt, if_pos hd] at h1
    simp at h1
  simp only [tiledAt, if_neg hdim] at h1 ⊢
  rw [hsame]
  rcases hget : LruCache.get cache (tileIndexOf h x y) with ⟨o, cache1⟩
  rw [hget] at h1
  have hcap1 : cache1.cap = 200 := by
    have := LruCache.cap_get cache (tileIndexOf h x y)
    rw [hget] at this
    rw [← hcap]
    exact this
  cases o with
  | some tile =>
    obtain ⟨hpix, hcache, -⟩ : tilePixel h tile x y = some c ∧ cache1 = cache2 ∧
        (0 : Nat × Nat) = (rd, inf) := by
      simpa using h1
    have hfst : (cache2.get (tileIndexOf h x y)).1 = some tile := by
      apply LruCache.get_fst_again cache (tileIndexOf h x y) tile cache2
      rw [hget, hcache]
    rcases hget2 : LruCache.get cache2 (tileIndexOf h x y) with ⟨o2, cache3⟩
    have ho2 : o2 = some tile := by
      rw [hget2] at hfst
      exact hfst
    subst ho2
    refine ⟨rfl, fun hx2 hy2 => ?_⟩
    subst hx2; subst hy2
    simpa using hpix
  | none =>
    rcases hload : loadTile infl h src (tileIndexOf h x y) with ⟨tout, rd1, inf1⟩
    rw [hload] at h1
    cases tout with
    | none => simp at h1
    | some tile =>
      obtain ⟨hpix, hcache, -⟩ : tilePixel h tile x y = some c ∧
          LruCache.add cache1 (tileIndexOf h x y) tile = cache2 ∧
          (rd1, inf1) = (rd, inf) := by simpa using h1
      have hfst : (cache2.get (tileIndexOf h x y)).1 = some tile := by
        rw [← hcache]
        exact LruCache.get_add_fst cache1 (tileIndexOf h x y) tile (by omega)
      rcases hget2 : LruCache.get cache2 (tileIndexOf h x y) with ⟨o2, cache3⟩
      have ho2 : o2 = some tile := by
        rw [hget2] at hfst
        exact hfst
      subst ho2
      refine ⟨rfl, fun hx2 hy2 => ?_⟩
      subst hx2; subst hy2
      simpa using hpix

set_option maxRecDepth 100000 in
/-- Witness for C3: on the Deflate tiled witness image, the first query at
(0, 0) reads and inflates once; repeating it performs no ReadAt call and no
inflater invocation and returns the same color. -/
theorem tiledAt_cache_hit_no_reread_witness :
    (tiledAt mockInflate hTiled tiledSrc cacheAfterFirst 0 0).2.2 = (0, 0) ∧
    (tiledAt mockInflate hTiled tiledSrc cacheAfterFirst 0 0).1 =
      some ⟨10, 10, 10, 255⟩ :=
  ⟨(tiledAt_cache_hit_no_reread hTiled tiledSrc mockInflate cache200 0 0 0 0
      ⟨10, 10, 10, 255⟩ cacheAfterFirst 1 1 (by decide) (by decide) (by decide)
      rfl).1,
   (tiledAt_cache_hit_no_reread hTiled tiledSrc mockInflate cache200 0 0 0 0
      ⟨10, 10, 10, 255⟩ cacheAfterFirst 1 1 (by decide) (by decide) (by decide)
      rfl).2 rfl rfl⟩

/-- C1, amended.  decode tries the striped loader first and returns its
image on success, then the tiled loader, and otherwise falls back; any pair
of constructor errors — not only the four construction-time rejections —
selects the fallback, and no constructor error reaches the caller. -/
theorem decode_tries_striped_tiled_fallback (src : Source) :
    (∀ h, loadStripedTiff src = .ok h → decode src = .ok (.striped h)) ∧
    (∀ e h, loadStripedTiff src = .error e → loadTiledTiff src = .ok h →
      decode src = .ok (.tiled h)) ∧
    (∀ e e2, loadStripedTiff src = .error e → loadTiledTiff src = .error e2 →
      decode src = .ok .fallback) ∧
    (loadStripedTiff src = .panic → decode src = .panic) ∧
    (∀ e, loadStripedTiff src = .error e → loadTiledTiff src = .panic →
      decode src = .panic) := by
  refine ⟨?_, ?_, ?_, ?_, ?_⟩
  · intro h hs
    rw [decode, hs]
  · intro e h hs ht
    rw [decode, hs, ht]
  · intro e e2 hs ht
    rw [decode, hs, ht]
  · intro hs
    rw [decode, hs]
  · intro e hs ht
    rw [decode, hs, ht]

set_option maxRecDepth 1000000 in
/-- Witness for the amended C1 at the three concrete sources: a striped
image, a Deflate tiled image the striped loader rejects, and a non-TIFF
byte string on which both loaders fail with InvalidHeader. -/
theorem decode_tries_striped_tiled_fallback_witness :
    decode stripedSrc = .ok (.striped hStriped) ∧
    decode tiledSrc = .ok (.tiled hTiled) ∧
    decode srcBadMagic = .ok .fallback :=
  ⟨(decode_tries_striped_tiled_fallback stripedSrc).1 hStriped (by decide),
   (decode_tries_striped_tiled_fallback tiledSrc).2.1 .unsupportedCompression hTiled
     (by decide) (by decide),
   (decode_tries_striped_tiled_fallback srcBadMagic).2.2.1 .invalidHeader .invalidHeader
     (by decide) (by decide)⟩

/-- C5, amended.  Construction performs no positivity check on RowsPerStrip
(striped) or TileWidth/TileHeight (tiled); on a successfully constructed
decoder whose field kept the zero default, every pixel query crashes with a
division by zero (modelled none) instead of answering. -/
theorem constructed_zero_geometry_at_crashes (h : TiffHeader) (src : Source)
    (infl : List Nat → Option (List Nat)) (cache : LruCache) (x y : Nat) :
    (checkStriped h = .ok h → h.rowsPerStrip = 0 → stripedAt h src x y = none) ∧
    (checkTiled h = .ok h → h.tileWidth = 0 ∨ h.tileHeight = 0 →
      (tiledAt infl h src cache x y).1 = none) := by
  constructor
  · intro _ h0
    rw [stripedAt, if_pos h0]
  · intro _ h0
    rw [tiledAt, if_pos h0]

set_option maxRecDepth 1000000 in
/-- Witness for the amended C5 at the two zero-geometry decoders that
construction accepted. -/
theorem constructed_zero_geometry_at_crashes_witness :
    stripedAt hNoRps srcNoRps 0 0 = none ∧
    (tiledAt mockInflate hNoTileLen srcNoTileLen cache200 0 0).1 = none :=
  ⟨(constructed_zero_geometry_at_crashes hNoRps srcNoRps mockInflate cache200 0 0).1
     (by decide) (by decide),
   (constructed_zero_geometry_at_crashes hNoTileLen srcNoTileLen mockInflate cache200 0 0).2
     (by decide) (by decide)⟩

/-- C6, amended.  Full characterization of striped construction over the
parsed record, in the order the checks run: UnsupportedCompression when the
compression is not None; else UnsupportedPhotometric when the photometric
is neither BlackIsZero nor RGB; else UnsupportedSampleFormat when the
sample count does not match the photometric; else — when the sample count
matches but BitsPerSample is empty — a crash (index-out-of-range panic)
rather than an error; else UnsupportedSampleFormat when the leading bit
depth is not 8; else InvalidLayout when StripOffsets is empty or of a
length different from StripByteCounts; else success, wrapping the record
and the source. -/
theorem checkStriped_characterization (h : TiffHeader) :
    (h.compression ≠ compression.noCompression →
      checkStriped h = .error .unsupportedCompression) ∧
    (h.compression = compression.noCompression →
      h.photometric ≠ photometric.blackIsZero → h.photometric ≠ photometric.rgb →
      checkStriped h = .error .unsupportedPhotometric) ∧
    (h.compression = compression.noCompression →
      ((h.photometric = photometric.blackIsZero ∧ h.samplesPerPixel ≠ 1) ∨
       (h.photometric = photometric.rgb ∧ h.samplesPerPixel ≠ 3)) →
      checkStriped h = .error .unsupportedSampleFormat) ∧
    (h.compression = compression.noCompression →
      ((h.photometric = photometric.blackIsZero ∧ h.samplesPerPixel = 1) ∨
       (h.photometric = photometric.rgb ∧ h.samplesPerPixel = 3)) →
      (h.bitsPerSample = [] → checkStriped h = .panic) ∧
      (∀ b l, h.bitsPerSample = b :: l → b ≠ 8 →
        checkStriped h = .error .unsupportedSampleFormat) ∧
      (∀ l, h.bitsPerSample = 8 :: l →
        ((h.stripOffsets = [] ∨ h.stripOffsets.length ≠ h.stripByteCounts.length) →
          checkStriped h = .error .invalidLayout) ∧
        (h.stripOffsets ≠ [] → h.stripOffsets.length = h.stripByteCounts.length →
          checkStriped h = .ok h))) := by
  have hbz : photometric.blackIsZero ≠ photometric.rgb := by decide
  refine ⟨?_, ?_, ?_, ?_⟩
  · intro hc
    rw [checkStriped, if_pos hc]
  · intro hc hp1 hp2
    rw [checkStriped, if_neg (by simp [hc]), if_pos ⟨hp2, hp1⟩]
  · intro hc hps
    rcases hps with ⟨hp, hs⟩ | ⟨hp, hs⟩
    · rw [checkStriped, if_neg (by simp [hc]), if_neg (by simp [hp, hbz]),
        if_pos hp, if_pos hs]
    · rw [checkStriped, if_neg (by simp [hc]), if_neg (by simp [hp]),
        if_neg (by simp [hp, hbz.symm]), if_pos hp, if_pos hs]
  · intro hc hps
    rcases hps with ⟨hp, hs⟩ | ⟨hp, hs⟩
    · refine ⟨?_, ?_, ?_⟩
      · intro hb
        rw [checkStriped, if_neg (by simp [hc]), if_neg (by simp [hp, hbz]),
          if_pos hp, if_neg (by simp [hs]), hb]
      · intro b l hb hb8
        rw [checkStriped, if_neg (by simp [hc]), if_neg (by simp [hp, hbz]),
          if_pos hp, if_neg (by simp [hs]), hb]
        simp only [if_pos hb8]
      · intro l hb
        constructor
        · intro hlay
          rw [checkStriped, if_neg (by simp [hc]), if_neg (by simp [hp, hbz]),
            if_pos hp, if_neg (by simp [hs]), hb]
          simp only [if_neg (by decide : ¬(8 : Nat) ≠ 8), if_pos hlay]
        · intro hso hlen
          rw [checkStriped, if_neg (by simp [hc]), if_neg (by simp [hp, hbz]),
            if_pos hp, if_neg (by simp [hs]), hb]
          simp only [if_neg (by decide : ¬(8 : Nat) ≠ 8)]
          rw [if_neg (by simp [hso, hlen])]
    · refine ⟨?_, ?_, ?_⟩
      · intro hb
        rw [checkStriped, if_neg (by simp [hc]), if_neg (by simp [hp]),
          if_neg (by simp [hp, hbz.symm]), if_pos hp, if_neg (by simp [hs]), hb]
      · intro b l hb hb8
        rw [checkStriped, if_neg (by simp [hc]), if_neg (by simp [hp]),
          if_neg (by simp [hp, hbz.symm]), if_pos hp, if_neg (by simp [hs]), hb]
        simp only [if_pos hb8]
      · intro l hb
        constructor
        · intro hlay
          rw [checkStriped, if_neg (by simp [hc]), if_neg (by simp [hp]),
            if_neg (by simp [hp, hbz.symm]), if_pos hp, if_neg (by simp [hs]), hb]
          simp only [if_neg (by decide : ¬(8 : Nat) ≠ 8), if_pos hlay]
        · intro hso hlen
          rw [checkStriped, if_neg (by simp [hc]), if_neg (by simp [hp]),
            if_neg (by simp [hp, hbz.symm]), if_pos hp, if_neg (by simp [hs]), hb]
          simp only [if_neg (by decide : ¬(8 : Nat) ≠ 8)]
          rw [if_neg (by simp [hso, hlen])]

/-- Witness for the amended C6: the success branch at the valid striped
record and the UnsupportedCompression branch at the Deflate record. -/
theorem checkStriped_characterization_witness :
    checkStriped hStriped = .ok hStriped ∧
    checkStriped hTiled = .error .unsupportedCompression :=
  ⟨(((checkStriped_characterization hStriped).2.2.2 (by decide)
      (Or.inl ⟨by decide, by decide⟩)).2.2 [] (by decide)).2 (by decide) (by decide),
   (checkStriped_characterization hTiled).1 (by decide)⟩

/-- C7, amended.  Provided the initial eight-byte header read succeeds:
when the marker bytes are neither II nor MM, or when the version word per
the selected byte order is not 42, the parse fails with InvalidHeader
having performed exactly the one header read; when both checks pass, the
next read is at the 32-bit offset taken from header bytes 4..7 (the IFD
offset).  A source too short for the header read fails with the read error
instead (see the counterexample). -/
theorem parseHeader_marker_version_check (src : Source) (hd : List Nat)
    (hread : readAt src 0 8 = some hd) :
    (byteOrderOf hd[0]! hd[1]! = none →
      parseTiffHeaderT src = (.error .invalidHeader, [(0, 8)])) ∧
    (∀ bo, byteOrderOf hd[0]! hd[1]! = some bo → u16 bo hd[2]! hd[3]! ≠ 42 →
      parseTiffHeaderT src = (.error .invalidHeader, [(0, 8)])) ∧
    (∀ bo, byteOrderOf hd[0]! hd[1]! = some bo → u16 bo hd[2]! hd[3]! = 42 →
      (parseTiffHeaderT src).2.take 2 =
        [(0, 8), (u32 bo hd[4]! hd[5]! hd[6]! hd[7]!, 2)]) := by
  refine ⟨?_, ?_, ?_⟩
  · intro hbo
    simp only [parseTiffHeaderT, hread, hbo]
  · intro bo hbo hv
    simp only [parseTiffHeaderT, hread, hbo, if_pos hv]
  · intro bo hbo hv
    have hv2 : ¬(u16 bo hd[2]! hd[3]! ≠ 42) := by simpa using hv
    simp only [parseTiffHeaderT, hread, hbo, if_neg hv2]
    rcases h2 : readAt src (u32 bo hd[4]! hd[5]! hd[6]! hd[7]!) 2 with _ | ecr
    · simp
    · simp only []
      rcases h3 : readAt src (u32 bo hd[4]! hd[5]! hd[6]! hd[7]! + 2)
          (u16 bo ecr[0]! ecr[1]! * 12) with _ | entriesRaw
      · simp
      · rcases hpe : processEntries bo src (u16 bo ecr[0]! ecr[1]!) entriesRaw
            { byteOrder := bo } with ⟨r, t⟩
        simp

/-- Witness for the amended C7 at three concrete sources: bad marker, bad
version, and a valid little-endian header whose IFD offset 8 is the second
read. -/
theorem parseHeader_marker_version_check_witness :
    parseTiffHeaderT srcBadMagic = (.error .invalidHeader, [(0, 8)]) ∧
    parseTiffHeaderT srcBadVersion = (.error .invalidHeader, [(0, 8)]) ∧
    (parseTiffHeaderT stripedSrc).2.take 2 = [(0, 8), (8, 2)] :=
  ⟨(parseHeader_marker_version_check srcBadMagic [88, 88, 88, 88, 88, 88, 88, 88]
      (by decide)).1 (by decide),
   (parseHeader_marker_version_check srcBadVersion [73, 73, 43, 0, 8, 0, 0, 0]
      (by decide)).2.1 .little (by decide) (by decide),
   (parseHeader_marker_version_check stripedSrc [73, 73, 42, 0, 8, 0, 0, 0]
      (by decide)).2.2 .little (by decide) (by decide)⟩

/-- A successful ReadAt returns exactly the requested number of bytes. -/
lemma readAt_length (src : Source) (off size : Nat) (buf : List Nat)
    (h : readAt src off size = some buf) : buf.length = size := by
  unfold readAt at h
  split at h
  · cases h
    simp
    omega
  · cases h

/-- C9, counterexample.  A TileOffsets entry with count 2^30 makes the
uint32 byte count count·4 wrap to 0: the parser reads zero bytes and the
decode loop then panics indexing the empty buffer, instead of reading
2^30 consecutive 32-bit values as the claim states. -/
theorem processEntry_wrapped_count_panics :
    entryTag .little [68, 1, 4, 0, 0, 0, 0, 64, 0, 0, 0, 0] = 324 ∧
    entryCount .little [68, 1, 4, 0, 0, 0, 0, 64, 0, 0, 0, 0] = 2 ^ 30 ∧
    processEntry .little [7] [68, 1, 4, 0, 0, 0, 0, 64, 0, 0, 0, 0] {} =
      (.panic, [(0, 0)]) := by
  decide

/-- readLongArray at count 1: the value slot itself, no read. -/
lemma readLongArray_count_one (bo : ByteOrder) (src : Source) (count vo : Nat)
    (hc : count = 1) : readLongArray bo src count vo = (.ok [vo], []) := by
  rw [readLongArray, if_pos hc]

/-- readLongArray when the uint32 byte count does not wrap: the full array
is read and decoded. -/
lemma readLongArray_no_wrap (bo : ByteOrder) (src : Source) (count vo : Nat)
    (buf : List Nat) (hc : count ≠ 1) (hlt : count * 4 < 2 ^ 32)
    (hbuf : readAt src vo (count * 4) = some buf) :
    readLongArray bo src count vo = (.ok (u32List bo buf), [(vo, count * 4)]) := by
  have hmod : count * 4 % 2 ^ 32 = count * 4 := Nat.mod_eq_of_lt hlt
  have hlen : buf.length = count * 4 := readAt_length src vo (count * 4) buf hbuf
  rw [readLongArray, if_neg hc, hmod, hbuf]
  dsimp only
  rw [if_pos (le_of_eq hlen.symm)]

/-- readLongArray when the uint32 byte count wraps: the short buffer is
read and the decode loop panics past its end. -/
lemma readLongArray_wrap (bo : ByteOrder) (src : Source) (count vo : Nat)
    (buf : List Nat) (hw : 2 ^ 32 ≤ count * 4)
    (hbuf : readAt src vo (count * 4 % 2 ^ 32) = some buf) :
    readLongArray bo src count vo = (.panic, [(vo, count * 4 % 2 ^ 32)]) := by
  have hc : count ≠ 1 := by omega
  have hlen : buf.length = count * 4 % 2 ^ 32 :=
    readAt_length src vo (count * 4 % 2 ^ 32) buf hbuf
  have hng : ¬(count * 4 ≤ buf.length) := by
    have := Nat.mod_lt (count * 4) (show 0 < 2 ^ 32 by norm_num)
    omega
  rw [readLongArray, if_neg hc, hbuf]
  dsimp only
  rw [if_neg hng]

/-- readShortArray at count 1: the 16-bit value slot, no read. -/
lemma readShortArray_count_one (bo : ByteOrder) (src : Source) (count vo s16 : Nat)
    (hc : count = 1) : readShortArray bo src count vo s16 = (.ok [s16], []) := by
  rw [readShortArray, if_pos hc]

/-- readShortArray when the uint32 byte count does not wrap. -/
lemma readShortArray_no_wrap (bo : ByteOrder) (src : Source) (count vo s16 : Nat)
    (buf : List Nat) (hc : count ≠ 1) (hlt : count * 2 < 2 ^ 32)
    (hbuf : readAt src vo (count * 2) = some buf) :
    readShortArray bo src count vo s16 =
      (.ok (u16List bo buf), [(vo, count * 2)]) := by
  have hmod : count * 2 % 2 ^ 32 = count * 2 := Nat.mod_eq_of_lt hlt
  have hlen : buf.length = count * 2 := readAt_length src vo (count * 2) buf hbuf
  rw [readShortArray, if_neg hc, hmod, hbuf]
  dsimp only
  rw [if_pos (le_of_eq hlen.symm)]

/-- readShortArray when the uint32 byte count wraps: panic past the short
buffer. -/
lemma readShortArray_wrap (bo : ByteOrder) (src : Source) (count vo s16 : Nat)
    (buf : List Nat) (hw : 2 ^ 32 ≤ count * 2)
    (hbuf : readAt src vo (count * 2 % 2 ^ 32) = some buf) :
    readShortArray bo src count vo s16 = (.panic, [(vo, count * 2 % 2 ^ 32)]) := by
  have hc : count ≠ 1 := by omega
  have hlen : buf.length = count * 2 % 2 ^ 32 :=
    readAt_length src vo (count * 2 % 2 ^ 32) buf hbuf
  have hng : ¬(count * 2 ≤ buf.length) := by
    have := Nat.mod_lt (count * 2) (show 0 < 2 ^ 32 by norm_num)
    omega
  rw [readShortArray, if_neg hc, hbuf]
  dsimp only
  rw [if_neg hng]

/-- C9, amended.  For the four long-array tags (StripOffsets 273,
StripByteCounts 279, TileOffsets 324, TileByteCounts 325): count 1 takes
the single 32-bit value from the value slot with no extra read; otherwise
the parser reads count·4 mod 2^32 bytes at the out-of-line offset — the
byte count is a uint32 product and wraps — and decodes count consecutive
32-bit values when count·4 stays below 2^32, while a wrapped product makes
the decode loop run past the short buffer and panic.  Analogously for the
16-bit BitsPerSample tag 258 with count·2.  An entry whose tag is outside
the recognized vocabulary leaves the record unchanged and reads nothing. -/
theorem processEntry_array_tags (bo : ByteOrder) (src : Source) (entry : List Nat)
    (hdr : TiffHeader) :
    (∀ t, t = 273 ∨ t = 279 ∨ t = 324 ∨ t = 325 →
      entryTag bo entry = t →
      (entryCount bo entry = 1 →
        processEntry bo src entry hdr =
          (.ok (setLongArrayTag t hdr [entryValOffset bo entry]), [])) ∧
      (entryCount bo entry ≠ 1 → entryCount bo entry * 4 < 2 ^ 32 →
        ∀ buf, readAt src (entryValOffset bo entry) (entryCount bo entry * 4) = some buf →
          processEntry bo src entry hdr =
            (.ok (setLongArrayTag t hdr (u32List bo buf)),
              [(entryValOffset bo entry, entryCount bo entry * 4)])) ∧
      (2 ^ 32 ≤ entryCount bo entry * 4 →
        ∀ buf, readAt src (entryValOffset bo entry)
            (entryCount bo entry * 4 % 2 ^ 32) = some buf →
          processEntry bo src entry hdr =
            (.panic, [(entryValOffset bo entry, entryCount bo entry * 4 % 2 ^ 32)]))) ∧
    (entryTag bo entry = 258 →
      (entryCount bo entry = 1 →
        processEntry bo src entry hdr =
          (.ok { hdr with bitsPerSample := [entrySlot16 bo entry] }, [])) ∧
      (entryCount bo entry ≠ 1 → entryCount bo entry * 2 < 2 ^ 32 →
        ∀ buf, readAt src (entryValOffset bo entry) (entryCount bo entry * 2) = some buf →
          processEntry bo src entry hdr =
            (.ok { hdr with bitsPerSample := u16List bo buf },
              [(entryValOffset bo entry, entryCount bo entry * 2)])) ∧
      (2 ^ 32 ≤ entryCount bo entry * 2 →
        ∀ buf, readAt src (entryValOffset bo entry)
            (entryCount bo entry * 2 % 2 ^ 32) = some buf →
          processEntry bo src entry hdr =
            (.panic, [(entryValOffset bo entry, entryCount bo entry * 2 % 2 ^ 32)]))) ∧
    (entryTag bo entry ∉ recognizedTags →
      processEntry bo src entry hdr = (.ok hdr, [])) := by
  refine ⟨?_, ?_, ?_⟩
  · intro t ht4 htag
    rcases ht4 with rfl | rfl | rfl | rfl
    all_goals refine ⟨fun hc => ?_, fun hc hlt buf hbuf => ?_, fun hw buf hbuf => ?_⟩
    all_goals rw [processEntry]
    all_goals simp only [htag]
    all_goals norm_num
    all_goals first
      | (rw [readLongArray_count_one bo src (entryCount bo entry)
            (entryValOffset bo entry) hc, setLongArrayTag]
         ; norm_num)
      | (rw [readLongArray_no_wrap bo src (entryCount bo entry)
            (entryValOffset bo entry) buf hc hlt hbuf, setLongArrayTag]
         ; norm_num)
      | (rw [readLongArray_wrap bo src (entryCount bo entry)
            (entryValOffset bo entry) buf hw hbuf]
         ; norm_num)
  · intro htag
    refine ⟨fun hc => ?_, fun hc hlt buf hbuf => ?_, fun hw buf hbuf => ?_⟩
    all_goals rw [processEntry]
    all_goals simp only [htag]
    all_goals norm_num
    · rw [readShortArray_count_one bo src (entryCount bo entry)
        (entryValOffset bo entry) (entrySlot16 bo entry) hc]
    · rw [readShortArray_no_wrap bo src (entryCount bo entry)
        (entryValOffset bo entry) (entrySlot16 bo entry) buf hc hlt hbuf]
    · rw [readShortArray_wrap bo src (entryCount bo entry)
        (entryValOffset bo entry) (entrySlot16 bo entry) buf hw hbuf]
      norm_num
  · intro hnot
    simp only [recognizedTags, List.mem_cons, List.mem_singleton, not_or] at hnot
    push_neg at hnot
    obtain ⟨h1, h2, h3, h4, h5, h6, h7, h8, h9, h10, h11, h12, h13, h14, -⟩ := hnot
    rw [processEntry, if_neg h1, if_neg h2, if_neg h3, if_neg h4, if_neg h5,
      if_neg h6, if_neg h7, if_neg h8, if_neg h9, if_neg h10, if_neg h11,
      if_neg h12, if_neg h13, if_neg h14]

/-- Witness for the amended C9 at concrete entries: an inline StripOffsets
entry, an out-of-line two-element StripOffsets entry, an inline
BitsPerSample entry, a TileOffsets entry with count 2^30 + 1 whose wrapped
byte count reads four bytes and panics in the decode loop, and an entry
with the unrecognized tag 999. -/
theorem processEntry_array_tags_witness :
    processEntry .little [] [17, 1, 4, 0, 1, 0, 0, 0, 118, 0, 0, 0] {} =
      (.ok (setLongArrayTag 273 {} [118]), []) ∧
    processEntry .little [1, 0, 0, 0, 2, 0, 0, 0]
        [17, 1, 4, 0, 2, 0, 0, 0, 0, 0, 0, 0] {} =
      (.ok (setLongArrayTag 273 {} (u32List .little [1, 0, 0, 0, 2, 0, 0, 0])),
        [(0, 8)]) ∧
    processEntry .little [] [2, 1, 3, 0, 1, 0, 0, 0, 8, 0, 0, 0] {} =
      (.ok { ({} : TiffHeader) with bitsPerSample := [8] }, []) ∧
    processEntry .little [1, 0, 0, 0] [68, 1, 4, 0, 1, 0, 0, 64, 0, 0, 0, 0] {} =
      (.panic, [(0, 4)]) ∧
    processEntry .little [] [231, 3, 0, 0, 1, 0, 0, 0, 0, 0, 0, 0] {} =
      (.ok {}, []) :=
  ⟨((processEntry_array_tags .little [] [17, 1, 4, 0, 1, 0, 0, 0, 118, 0, 0, 0] {}).1
      273 (Or.inl rfl) (by decide)).1 (by decide),
   ((processEntry_array_tags .little [1, 0, 0, 0, 2, 0, 0, 0]
      [17, 1, 4, 0, 2, 0, 0, 0, 0, 0, 0, 0] {}).1
      273 (Or.inl rfl) (by decide)).2.1 (by decide) (by decide)
      [1, 0, 0, 0, 2, 0, 0, 0] (by decide),
   ((processEntry_array_tags .little [] [2, 1, 3, 0, 1, 0, 0, 0, 8, 0, 0, 0] {}).2.1
      (by decide)).1 (by decide),
   ((processEntry_array_tags .little [1, 0, 0, 0]
      [68, 1, 4, 0, 1, 0, 0, 64, 0, 0, 0, 0] {}).1
      324 (Or.inr (Or.inr (Or.inl rfl))) (by decide)).2.2 (by decide)
      [1, 0, 0, 0] (by decide),
   (processEntry_array_tags .little [] [231, 3, 0, 0, 1, 0, 0, 0, 0, 0, 0, 0] {}).2.2
      (by decide)⟩

/-- An integer of magnitude at most 2^53 is exactly representable. -/
lemma representable_int (n : ℤ) (hn : n.natAbs ≤ 2 ^ 53) :
    RepresentableF64 ((n : ℤ) : ℚ) :=
  ⟨n, 0, by simp, hn⟩

/-- A natural number of magnitude at most 2^53 is exactly representable. -/
lemma representable_nat (n : ℕ) (hn : n ≤ 2 ^ 53) :
    RepresentableF64 ((n : ℕ) : ℚ) := by
  have := representable_int (n : ℤ) (by simpa using hn)
  simpa using this

/-- C10.  For every Width below 2^32 and positive TileWidth below 2^32 (the
range of parsed 32-bit tag values), and every r that round-to-nearest
IEEE-754 binary64 division of the two (exactly converted, both being below
2^53) may produce, the ceiling of r equals the exact integer ceiling
⌈Width / TileWidth⌉ used as tilesAcross by the tiled pixel query — so the
floating-point tile index of the implementation agrees with the spec's
integer arithmetic.  (math.Ceil and the int conversion are exact on these
magnitudes.) -/
theorem tilesAcross_float_ceil_exact (w tw : ℕ) (hw : w < 2 ^ 32) (htw : 0 < tw)
    (htw2 : tw < 2 ^ 32) (r : ℚ) (hr : IsNearestF64 ((w : ℚ) / (tw : ℚ)) r) :
    ⌈r⌉ = (tilesAcrossSpec w tw : ℤ) := by
  have htwQ : (0 : ℚ) < tw := by positivity
  by_cases hdvd : tw ∣ w
  · -- exact division: the quotient is an integer and is itself representable
    obtain ⟨k, hk⟩ := hdvd
    have hkw : k ≤ w := by
      rw [hk]
      exact Nat.le_mul_of_pos_left k htw
    have hq : (w : ℚ) / tw = (k : ℚ) := by
      rw [hk]
      push_cast
      field_simp
    have hrep : RepresentableF64 ((k : ℕ) : ℚ) :=
      representable_nat k (by omega)
    have h0 : |(w : ℚ) / tw - r| ≤ 0 := by
      have := hr.2 (k : ℚ) hrep
      simpa [hq] using this
    have habs : |(w : ℚ) / tw - r| = 0 := le_antisymm h0 (abs_nonneg _)
    have hsub : (w : ℚ) / tw - r = 0 := abs_eq_zero.mp habs
    have hrk : r = (k : ℚ) := by
      rw [hq] at hsub
      linarith
    rw [hrk, Int.ceil_natCast]
    have hta : tilesAcrossSpec w tw = k := by
      rw [tilesAcrossSpec, hk]
      have h1 : tw * k + tw - 1 = tw * k + (tw - 1) := by omega
      rw [h1, Nat.mul_add_div htw, Nat.div_eq_of_lt (by omega)]
      omega
    rw [hta]
  · -- inexact division: quotient strictly between k and k + 1
    have htw1 : 2 ≤ tw := by
      by_contra h2
      push_neg at h2
      have h1 : tw = 1 := by omega
      exact hdvd (h1 ▸ one_dvd w)
    set k := w / tw with hkdef
    set ρ := w % tw with hρdef
    have hρ1 : 1 ≤ ρ := by
      by_contra h0
      push_neg at h0
      exact hdvd (Nat.dvd_iff_mod_eq_zero.mpr (by omega))
    have hρtw : ρ < tw := Nat.mod_lt w htw
    have hwmod : tw * k + ρ = w := Nat.div_add_mod w tw
    have hkw : k ≤ w := Nat.div_le_self w tw
    have hwQ : (tw : ℚ) * k + ρ = w := by exact_mod_cast hwmod
    have hsubk : (w : ℚ) / tw - k = (ρ : ℚ) / tw := by
      field_simp
      linarith
    have hx1 : (k : ℚ) < (w : ℚ) / tw := by
      have : (0 : ℚ) < (ρ : ℚ) / tw := by positivity
      linarith
    have hx2 : (w : ℚ) / tw < (k : ℚ) + 1 := by
      have : (ρ : ℚ) / tw < 1 := by
        rw [div_lt_one htwQ]
        exact_mod_cast hρtw
      linarith
    -- the binary grid scale: tw ≤ 2^s < 2·tw
    have hs1 : tw ≤ 2 ^ Nat.clog 2 tw := Nat.le_pow_clog (by norm_num) tw
    have hs2 : 2 ^ Nat.clog 2 tw < 2 * tw := by
      have hpred : 2 ^ (Nat.clog 2 tw - 1) < tw :=
        Nat.pow_pred_clog_lt_self (by norm_num) (by omega)
      have hspos : 0 < Nat.clog 2 tw := Nat.clog_pos (by norm_num) (by omega)
      have hsplit : 2 ^ Nat.clog 2 tw = 2 * 2 ^ (Nat.clog 2 tw - 1) := by
        conv_lhs => rw [show Nat.clog 2 tw = (Nat.clog 2 tw - 1) + 1 by omega]
        ring
      omega
    set s : ℕ := Nat.clog 2 tw with hsdef
    have h2sQ : (0 : ℚ) < (2 : ℚ) ^ s := by positivity
    set q : ℚ := (w : ℚ) / tw with hqdef
    set m : ℤ := ⌊q * 2 ^ s⌋ with hmdef
    have hm0 : 0 ≤ m := Int.floor_nonneg.2 (by positivity)
    have hmle : (m : ℚ) ≤ q * 2 ^ s := Int.floor_le _
    have hmup : q * 2 ^ s < 2 ^ 33 := by
      have hlt : (2 : ℚ) ^ s < 2 * tw := by exact_mod_cast hs2
      have hwQ2 : (w : ℚ) < 2 ^ 32 := by exact_mod_cast hw
      have hq2 : q * tw = w := by
        rw [hqdef]
        field_simp
      have e1 : q * 2 ^ s < q * (2 * tw) ∨ q = 0 := by
        rcases eq_or_lt_of_le (by positivity : (0 : ℚ) ≤ q) with h0 | h0
        · exact Or.inr h0.symm
        · exact Or.inl (by exact mul_lt_mul_of_pos_left hlt h0)
      rcases e1 with e1 | e1
      · have he : q * (2 * tw) = 2 * (q * tw) := by ring
        rw [he, hq2] at e1
        linarith
      · rw [e1]
        norm_num
    have hm53 : m.natAbs ≤ 2 ^ 53 := by
      have hmq : (m : ℚ) < 2 ^ 33 := lt_of_le_of_lt hmle hmup
      have hmlt : m < 2 ^ 33 := by exact_mod_cast hmq
      omega
    set g : ℚ := (m : ℚ) / 2 ^ s with hgdef
    have hgrep : RepresentableF64 g := by
      refine ⟨m, -(s : ℤ), ?_, hm53⟩
      rw [zpow_neg, zpow_natCast, hgdef, div_eq_mul_inv]
    have hgle : g ≤ q := by
      rw [hgdef, div_le_iff h2sQ]
      exact hmle
    have hgclose : q - g < ((2 : ℚ) ^ s)⁻¹ := by
      have hfl : q * 2 ^ s - m < 1 := by
        have := Int.lt_floor_add_one (q * 2 ^ s)
        push_cast at this
        linarith
      have heq : q - g = (q * 2 ^ s - m) / 2 ^ s := by
        rw [hgdef]
        field_simp
      rw [heq, inv_eq_one_div]
      gcongr
    have hstep : ((2 : ℚ) ^ s)⁻¹ ≤ (ρ : ℚ) / tw := by
      have h1 : (tw : ℚ) ≤ 2 ^ s := by exact_mod_cast hs1
      have h2 : ((2 : ℚ) ^ s)⁻¹ ≤ (tw : ℚ)⁻¹ := by
        gcongr
      have h3 : (tw : ℚ)⁻¹ ≤ (ρ : ℚ) / tw := by
        rw [inv_eq_one_div]
        gcongr
        exact_mod_cast hρ1
      linarith
    have hrg := hr.2 g hgrep
    have habsg : |q - g| = q - g := abs_of_nonneg (by linarith)
    have hrk1 : |q - r| < q - k := by
      rw [habsg] at hrg
      have hcl : q - g < q - (k : ℚ) := by
        have : ((2 : ℚ) ^ s)⁻¹ ≤ q - k := by
          rw [hsubk]
          exact hstep
        linarith
      linarith
    have hk1rep : RepresentableF64 (((k + 1 : ℕ)) : ℚ) :=
      representable_nat (k + 1) (by omega)
    have hrk2 : |q - r| ≤ (k : ℚ) + 1 - q := by
      have hnear := hr.2 (((k + 1 : ℕ)) : ℚ) hk1rep
      have hcast : (((k + 1 : ℕ)) : ℚ) = (k : ℚ) + 1 := by push_cast; ring
      rw [hcast] at hnear
      have habs : |q - ((k : ℚ) + 1)| = (k : ℚ) + 1 - q := by
        rw [abs_of_nonpos (by linarith)]
        ring
      linarith
    have hrlow : (k : ℚ) < r := by
      by_contra hle
      push_neg at hle
      have habs2 : |q - r| = q - r := abs_of_nonneg (by linarith)
      linarith
    have hrhigh : r ≤ (k : ℚ) + 1 := by
      by_contra hgt
      push_neg at hgt
      have habs2 : |q - r| = r - q := by
        rw [abs_of_nonpos (by linarith)]
        ring
      linarith
    have hceil : ⌈r⌉ = (k : ℤ) + 1 := by
      rw [Int.ceil_eq_iff]
      constructor
      · push_cast
        linarith
      · push_cast
        linarith
    rw [hceil]
    have hta : tilesAcrossSpec w tw = k + 1 := by
      rw [tilesAcrossSpec]
      have h2 : tw * (k + 1) = tw * k + tw := by ring
      have h1 : w + tw - 1 = tw * (k + 1) + (ρ - 1) := by omega
      rw [h1, Nat.mul_add_div htw, Nat.div_eq_of_lt (by omega)]
    rw [hta]
    push_cast
    ring

/-- Witness for C10 at Width 5, TileWidth 2: the exact quotient 5/2 is
itself representable, so it is the rounded result, and its ceiling is
tilesAcross = 3. -/
theorem tilesAcross_float_ceil_exact_witness :
    IsNearestF64 ((5 : ℚ) / (2 : ℚ)) (5 / 2) ∧
    ⌈(5 / 2 : ℚ)⌉ = (tilesAcrossSpec 5 2 : ℤ) := by
  have hrep : RepresentableF64 (5 / 2 : ℚ) := by
    refine ⟨5, -1, ?_, by norm_num⟩
    norm_num
  have hnear : IsNearestF64 ((5 : ℚ) / (2 : ℚ)) (5 / 2) := by
    refine ⟨hrep, ?_⟩
    intro sv hsv
    simp
  exact ⟨hnear,
    tilesAcross_float_ceil_exact 5 2 (by norm_num) (by norm_num) (by norm_num)
      (5 / 2) hnear⟩

end Tiff
